import Mathlib

/-!
Verification of `summary.py` from the project-summary repository.

Each Python function relevant to the claims is shallowly embedded as an
executable Lean definition, translated directly from the source.  Strings
are modelled as `List Char` (via `String.data`) where character-level
slicing matters.  External collaborators (the HTTP library, the clock,
`time.strftime`) are modelled as explicit parameters.
-/

namespace ProjectSummary

/-! ## Character and digit utilities (Python `str.isdigit`, `int`) -/

/-- Python `c.isdigit()` for an ASCII character, as used by `to_seconds`
and `coverage_number` (decimal digits). -/
def isDigitCh (c : Char) : Bool := '0' ≤ c && c ≤ '9'

/-- Python `s.isdigit()`: nonempty and all characters are digits. -/
def pyIsdigit (s : List Char) : Bool := !s.isEmpty && s.all isDigitCh

/-- Python `int(s)` on a digit string. -/
def natOfDigits (s : List Char) : Nat :=
  s.foldl (fun a c => a * 10 + (c.toNat - '0'.toNat)) 0

/-! ## `to_seconds` (summary.py lines 65-80)

```python
def to_seconds(value):
    units = {
        1: ('s', 'sec', 'second', 'seconds'),
        60: ('m', 'min', 'minute', 'minutes'),
        3600: ('h', 'hour', 'hours'),
    }
    s = value.replace(' ', '')
    if s.isdigit():
        return int(s)
    for multiplier, suffixes in units.items():
        for suffix in suffixes:
            if s.endswith(suffix):
                prefix = s[:-len(suffix)]
                if prefix.isdigit():
                    return int(prefix) * multiplier
    raise ValueError('bad time: %s' % value)
```
The `units` dict iterates in insertion order (Python >= 3.7).
A raised `ValueError` is modelled as `none`. -/

/-- The `units` table of `to_seconds`, in dict insertion order. -/
def unitsTable : List (Nat × List (List Char)) :=
  [ (1, ["s".data, "sec".data, "second".data, "seconds".data])
  , (60, ["m".data, "min".data, "minute".data, "minutes".data])
  , (3600, ["h".data, "hour".data, "hours".data]) ]

/-- Inner loop of `to_seconds`: try each suffix of one unit. -/
def trySuffixes (mult : Nat) : List (List Char) → List Char → Option Nat
  | [], _ => none
  | suf :: rest, s =>
      if suf.isSuffixOf s then
        let pre := s.take (s.length - suf.length)
        if pyIsdigit pre then some (natOfDigits pre * mult)
        else trySuffixes mult rest s
      else trySuffixes mult rest s

/-- Outer loop of `to_seconds`: try each unit in dict order. -/
def tryUnits : List (Nat × List (List Char)) → List Char → Option Nat
  | [], _ => none
  | (mult, sufs) :: rest, s =>
      match trySuffixes mult sufs s with
      | some n => some n
      | none => tryUnits rest s

/-- Python `to_seconds(value)`; `none` models the raised `ValueError`. -/
def to_seconds (value : String) : Option Nat :=
  let s := value.data.filter (fun c => c ≠ ' ')
  if pyIsdigit s then some (natOfDigits s)
  else tryUnits unitsTable s

/-! ## `normalize_github_url` (summary.py lines 217-228)

```python
def normalize_github_url(url):
    if not url:
        return url
    if url.startswith('git://github.com/'):
        url = 'https://github.com/' + url[len('git://github.com/'):]
    elif url.startswith('git@github.com:'):
        url = 'https://github.com/' + url[len('git@github.com:'):]
    if not url.startswith('https://github.com/'):
        return url
    if url.endswith('.git'):
        url = url[:-len('.git')]
    return url
```
`None`/empty (falsy) inputs are modelled by the empty character list. -/

/-- The string `git://github.com/` (17 characters). -/
def ghGitPre : List Char := "git://github.com/".data

/-- The string `git@github.com:` (15 characters). -/
def ghSshPre : List Char := "git@github.com:".data

/-- The string `https://github.com/` (19 characters). -/
def ghHttpsPre : List Char := "https://github.com/".data

/-- The string `.git` (4 characters). -/
def dotGit : List Char := ".git".data

/-- The first fifteen characters of `ghHttpsPre`; a normalized GitHub
URL keeps at least these even after one `.git` strip. -/
def ghHttps15 : List Char := "https://github.".data

/-- The two leading `if`/`elif` prefix translations of
`normalize_github_url`. -/
def gh_translate (url : List Char) : List Char :=
  if ghGitPre.isPrefixOf url then ghHttpsPre ++ url.drop ghGitPre.length
  else if ghSshPre.isPrefixOf url then ghHttpsPre ++ url.drop ghSshPre.length
  else url

/-- Python `normalize_github_url(url)` on the characters of the URL. -/
def normalize_github_url (url : List Char) : List Char :=
  if url = [] then url
  else
    let u1 := gh_translate url
    if ¬ ghHttpsPre.isPrefixOf u1 then u1
    else if dotGit.isSuffixOf u1 then u1.take (u1.length - dotGit.length)
    else u1

/-! ## `github_request` (summary.py lines 165-179)

```python
def github_request(url):
    res = requests.get(url)
    if res.status_code == 403 and res.headers.get('X-RateLimit-Remaining') == '0':
        reset_time = int(res.headers['X-RateLimit-Reset'])
        minutes = int(math.ceil((reset_time - time.time()) / 60))
        raise GitHubRateLimitError(
            '...message...\nTry again in {minutes} minutes, at {time}.')
    elif 400 <= res.status_code < 500:
        raise GitHubError(res.json()['message'])
    return res
```
The HTTP response is a parameter (status code, the two rate-limit headers,
and the parsed body `message` field); the wall clock `time.time()` is the
integer parameter `now`, and `time.strftime('%H:%M', time.localtime(t))`
is the opaque collaborator `fmtClock` (timezone-dependent formatting). -/

/-- One HTTP response as `github_request` observes it: status code,
`X-RateLimit-Remaining` header (absent = `none`), `X-RateLimit-Reset`
header already converted by `int(...)`, and the body message field
`res.json()['message']`. -/
structure GHResponse where
  status : Nat
  rateRemaining : Option String
  rateReset : Int
  message : String
deriving Repr, DecidableEq

/-- The two exception classes: `GitHubRateLimitError` is a subclass of
`GitHubError`, modelled as a second constructor of one error type. -/
inductive GHError where
  | rateLimit (msg : String)
  | generic (msg : String)
deriving Repr, DecidableEq

/-- Python `int(math.ceil((reset_time - time.time()) / 60))` with integral
wall-clock time: the ceiling of `(reset - now) / 60`. -/
def minutesUntilReset (reset now : Int) : Int := (reset - now + 59) / 60

/-- Python `github_request`, given the response for the URL; raises are `Except.error`. -/
def github_request (res : GHResponse) (now : Int) (fmtClock : Int → String) :
    Except GHError GHResponse :=
  if res.status = 403 ∧ res.rateRemaining = some "0" then
    .error (.rateLimit
      (res.message ++ "\nTry again in "
        ++ toString (minutesUntilReset res.rateReset now)
        ++ " minutes, at " ++ fmtClock res.rateReset ++ "."))
  else if 400 ≤ res.status ∧ res.status < 500 then
    .error (.generic res.message)
  else .ok res

/-! ## `github_request_list` (summary.py lines 186-194)

```python
def github_request_list(url, batch_size=100):
    res = github_request('%s?per_page=%d' % (url, batch_size))
    result = res.json()
    for page in itertools.count(2):
        if 'rel="next"' not in res.headers.get('Link', ''):
            break
        res = github_request('%s?per_page=%d&page=%d' % (url, batch_size, page))
        result.extend(res.json())
    return result
```
Successive GETs of pages 1, 2, 3, ... are modelled by a list of page
responses (page `k` is element `k-1`); each response carries its parsed
JSON array of items and its `Link` header (absent = `""`).  The pair
returned also counts the GET requests issued. -/

/-- Python `needle in hay` substring test on character lists. -/
def substrB (needle hay : List Char) : Bool :=
  hay.tails.any (fun t => needle.isPrefixOf t)

/-- One page response of the paginated issue-list API. -/
structure PageResponse (α : Type) where
  items : List α
  link : String
deriving Repr, DecidableEq

/-- The loop condition: `'rel="next"' in res.headers.get('Link', '')`. -/
def hasNextLink {α : Type} (r : PageResponse α) : Bool :=
  substrB "rel=\"next\"".data r.link.data

/-- The `for page in itertools.count(2)` loop: `cur` is the response most
recently fetched, `rest` the responses the server would serve for the
following pages, `acc` the accumulated `result`, `cnt` the number of GET
requests issued so far.  Running off the end of the server's pages while
a next-link is present is `none` (the real code would keep requesting). -/
def fetchRemaining {α : Type} :
    List (PageResponse α) → PageResponse α → List α → Nat →
    Option (List α × Nat)
  | rest, cur, acc, cnt =>
    if hasNextLink cur then
      match rest with
      | [] => none
      | r :: rs => fetchRemaining rs r (acc ++ r.items) (cnt + 1)
    else some (acc, cnt)

/-- Python `github_request_list(url)`, given the successive page responses. -/
def github_request_list {α : Type} (pages : List (PageResponse α)) :
    Option (List α × Nat) :=
  match pages with
  | [] => none
  | r :: rs => fetchRemaining rs r r.items 1

/-! ## `Project.coverage_number` and `Project.coverage` (summary.py lines 447-469)

```python
@reify
def coverage_number(self):
    url = self.coveralls_image_url
    if not url:
        return None
    res = requests.get(url, allow_redirects=False)
    location = res.headers.get('Location')
    if res.status_code != 302 or not location:
        return None
    PREFIX = 'https://s3.amazonaws.com/assets.coveralls.io/badges/coveralls_'
    SUFFIX = '.svg'
    if location.startswith(PREFIX) and location.endswith(SUFFIX):
        coverage = location[len(PREFIX):-len(SUFFIX)]
        if coverage.isdigit():  # could be 'unknown'
            return int(coverage)
    return None

def coverage(self, format='{}', unknown='-1'):
    if self.coverage_number is None:
        return unknown
    else:
        return format.format(self.coverage_number)
```
The badge GET is a parameter: the response status code and `Location`
header (absent = `none`; the empty string is also falsy in Python). -/

/-- The coveralls badge asset URL stem. -/
def covPre : List Char :=
  "https://s3.amazonaws.com/assets.coveralls.io/badges/coveralls_".data

/-- The coveralls badge asset URL suffix `SUFFIX = '.svg'` (4 characters). -/
def dotSvg : List Char := ".svg".data

/-- Python slice `location[len(PREFIX):-len(SUFFIX)]`. -/
def covSlice (loc : List Char) : List Char :=
  (loc.drop covPre.length).take (loc.length - covPre.length - dotSvg.length)

/-- Python `coverage_number`, given `coveralls_image_url` and the badge
response's status code and `Location` header. -/
def coverage_number (coverallsImageUrl : Option String)
    (status : Nat) (location : Option (List Char)) : Option Nat :=
  match coverallsImageUrl with
  | none => none
  | some _ =>
    if status ≠ 302 ∨ location = none ∨ location = some [] then none
    else
      match location with
      | none => none
      | some loc =>
        if covPre.isPrefixOf loc ∧ dotSvg.isSuffixOf loc then
          let cov := covSlice loc
          if pyIsdigit cov then some (natOfDigits cov) else none
        else none

/-- Python `coverage(format, unknown)`: `coverage_number` is the reified value,
and the Python format-string application is the function `fmt`. -/
def coverage (coverageNumber : Option Nat) (fmt : Nat → String)
    (unknown : String) : String :=
  match coverageNumber with
  | none => unknown
  | some n => fmt n

/-! ## `reify` (summary.py lines 46-53)

```python
class reify(object):
    def __init__(self, fn):
        self.fn = fn
    def __get__(self, obj, cls=None):
        value = self.fn(obj)
        obj.__dict__[self.fn.__name__] = value
        return value
```
`reify` is a non-data descriptor: Python attribute lookup consults the
instance `__dict__` first and only falls back to `__get__` when the
attribute is absent there, so storing the value in `obj.__dict__`
shadows the descriptor from then on.  `del obj.attr` removes the cached
entry.  The state of one attribute of one instance is its `__dict__`
slot plus a computation counter (the call-count instrumentation of the
spec); `fnValue` is the (deterministic) result of `self.fn(obj)`. -/

/-- State of one reified attribute on one instance. -/
structure ReifyState (α : Type) where
  cached : Option α
  computations : Nat
deriving Repr, DecidableEq

/-- A fresh instance: nothing cached, no computations run. -/
def ReifyState.fresh (α : Type) : ReifyState α := ⟨none, 0⟩

/-- Python `reify.__get__`: runs `fn`, stores the value in `obj.__dict__`. -/
def reify_get {α : Type} (fnValue : α) (st : ReifyState α) :
    α × ReifyState α :=
  (fnValue, ⟨some fnValue, st.computations + 1⟩)

/-- One attribute read: instance `__dict__` first, descriptor second. -/
def attrRead {α : Type} (fnValue : α) (st : ReifyState α) :
    α × ReifyState α :=
  match st.cached with
  | some v => (v, st)
  | none => reify_get fnValue st

/-- Python `del obj.attr`: explicit invalidation of the cached value. -/
def invalidate {α : Type} (st : ReifyState α) : ReifyState α :=
  ⟨none, st.computations⟩

/-- Reads the attribute `n` times in succession, collecting the values seen. -/
def attrReadN {α : Type} (fnValue : α) : Nat → ReifyState α →
    List α × ReifyState α
  | 0, st => ([], st)
  | n + 1, st =>
    let (v, st') := attrRead fnValue st
    let (vs, st'') := attrReadN fnValue n st'
    (v :: vs, st'')

/-! ## `print_html_report` (summary.py lines 1020-1031)

```python
def print_html_report(projects, config, filename=None):
    # I want atomicity: don't destroy old .html file if an exception happens
    # during rendering.
    html = template.render_unicode(projects=list(projects), ...)
    if filename and filename != '-':
        with open(filename, 'w') as f:
            f.write(html)
    else:
        print(html)
```
The order of effects is made explicit as a step list executed over the
output-file state: `render` may raise, `open(filename, 'w')` truncates
the file to empty, `write` stores the rendered document.  `projects` is
a one-shot generator (`get_projects` yields), modelled with a consumed
flag; `list(projects)` materializes it (and exhausts it). -/

/-- A one-shot generator and its underlying element sequence. -/
structure Gen (π : Type) where
  items : List π
  consumed : Bool
deriving Repr, DecidableEq

/-- Python `list(g)`: returns the remaining elements and exhausts `g`. -/
def Gen.materialize {π : Type} (g : Gen π) : List π × Gen π :=
  (if g.consumed then [] else g.items, ⟨g.items, true⟩)

/-- The three effects of the file branch of `print_html_report`, in
source order: render the template, open the file (truncating), write. -/
inductive ReportStep where
  | renderS
  | openS
  | writeS
deriving Repr, DecidableEq

/-- The step order of `print_html_report`: render fully, only then open
and write. -/
def reportSteps : List ReportStep := [.renderS, .openS, .writeS]

/-- Output state: contents of the output file (`none` = file does not
exist), the rendered document held in memory, and a raised exception. -/
structure ReportState (ε : Type) where
  file : Option String
  html : Option String
  err : Option ε

/-- Effect of one step.  `open(filename, 'w')` truncates the file;
`f.write(html)` stores the rendered document. -/
def reportStepRun {ε : Type} (render : Except ε String) :
    ReportStep → ReportState ε → ReportState ε
  | .renderS, st =>
    match render with
    | .ok h => { st with html := some h }
    | .error e => { st with err := some e }
  | .openS, st => { st with file := some "" }
  | .writeS, st => { st with file := st.html }

/-- Execute steps in order; a raised exception aborts the rest. -/
def reportExec {ε : Type} (render : Except ε String) :
    List ReportStep → ReportState ε → ReportState ε
  | [], st => st
  | s :: rest, st =>
    if st.err.isSome then st
    else reportExec render rest (reportStepRun render s st)

/-- Python `print_html_report(projects, config, filename)` for a real filename:
materializes the generator, renders, then opens and writes.  `render` is
`template.render_unicode` applied to the materialized project list;
`file0` is the previous content of the output file. -/
def print_html_report {π ε : Type} (render : List π → Except ε String)
    (projects : Gen π) (file0 : Option String) : ReportState ε :=
  let (ps, _) := projects.materialize
  reportExec (render ps) reportSteps ⟨file0, none, none⟩

/-! ## `parse_badge_text` (status-badge text extraction)

Modelled from the spec: the implementation (`Project._parse_svg_text` in
later versions) is not present in `src/summary.py`; only its tests ship
with the repository.  Per the spec, the function collects the text
content of all `text`/nested `tspan` elements of the SVG in document
order, skips every element whose containing node is shadow-flagged
(`fill-opacity` other than full, used for drop-shadow duplicates), skips
every caller-supplied excluded word, joins the survivors with single
spaces, and returns the empty string on malformed or non-SVG input
instead of raising. -/

/-- Modelled from the spec: one `text` element of a badge SVG.
`fillOpacity` is the attribute of the containing node (`none` when
unset = fully opaque); `pieces` is its text content, direct text and
nested `tspan` content, in document order. -/
structure BadgeTextElem where
  fillOpacity : Option String
  pieces : List String
deriving Repr, DecidableEq

/-- Modelled from the spec: shadow flag — a `fill-opacity` attribute
other than full opacity (`"1"`). -/
def BadgeTextElem.shadow (e : BadgeTextElem) : Bool :=
  match e.fillOpacity with
  | none => false
  | some v => v ≠ "1"

/-- Modelled from the spec: the visible, non-excluded words of a parsed
badge SVG (its `text` elements in document order). -/
def badgeWords (doc : List BadgeTextElem) (excluded : List String) :
    List String :=
  ((doc.filter (fun e => !e.shadow)).flatMap (fun e => e.pieces)).filter
    (fun w => w ∉ excluded)

/-- Modelled from the spec: `parse_badge_text(svg_body, excluded_words)`.
A malformed or non-SVG body (parse failure) is `none` and yields `""`. -/
def parse_badge_text (doc : Option (List BadgeTextElem))
    (excluded : List String) : String :=
  match doc with
  | none => ""
  | some d => String.intercalate " " (badgeWords d excluded)

/-! ## GitHub issues and pulls (summary.py lines 491-535)

```python
@reify
def github_issues(self):
    return [issue for issue in self.github_issues_and_pulls
            if 'pull_request' not in issue]

@reify
def github_pulls(self):
    return [issue for issue in self.github_issues_and_pulls
            if 'pull_request' in issue]

@reify
def open_issues_count(self):
    return len(self.github_issues)

@reify
def unlabeled_open_issues_count(self):
    return sum(1 for issue in self.github_issues if not issue['labels'])
```
(and symmetrically for pulls).  One fetched item is modelled by the
presence of its `pull_request` key and its `labels` array. -/

/-- One item of `github_issues_and_pulls`: whether the JSON object has a
`pull_request` key, and its `labels` array. -/
structure IssueItem where
  hasPullRequestKey : Bool
  labels : List String
deriving Repr, DecidableEq

/-- Python `Project.github_issues`. -/
def github_issues (issuesAndPulls : List IssueItem) : List IssueItem :=
  issuesAndPulls.filter (fun i => !i.hasPullRequestKey)

/-- Python `Project.github_pulls`. -/
def github_pulls (issuesAndPulls : List IssueItem) : List IssueItem :=
  issuesAndPulls.filter (fun i => i.hasPullRequestKey)

/-- Python `Project.open_issues_count`. -/
def open_issues_count (issuesAndPulls : List IssueItem) : Nat :=
  (github_issues issuesAndPulls).length

/-- Python `Project.open_pulls_count`. -/
def open_pulls_count (issuesAndPulls : List IssueItem) : Nat :=
  (github_pulls issuesAndPulls).length

/-- Python `Project.unlabeled_open_issues_count`: `not issue['labels']` is the
emptiness of the labels array. -/
def unlabeled_open_issues_count (issuesAndPulls : List IssueItem) : Nat :=
  ((github_issues issuesAndPulls).filter (fun i => i.labels.isEmpty)).length

/-- Python `Project.unlabeled_open_pulls_count`. -/
def unlabeled_open_pulls_count (issuesAndPulls : List IssueItem) : Nat :=
  ((github_pulls issuesAndPulls).filter (fun i => i.labels.isEmpty)).length

/-! ## `get_projects` (summary.py lines 538-550)

```python
def get_projects(config):
    for path in get_repos(config):
        p = Project(path, config)
        if p.name in config.ignore:
            continue
        if config.skip_branches and p.branch != 'master':
            continue
        if config.fetch:
            p.fetch()
        if config.pull:
            p.pull()
        if p.last_tag:
            yield p
```
`p.name` reads the reified `url` fact (`normalize_github_url` of the
`origin` remote URL, a VCS call); `p.branch` and `p.last_tag` are
reified VCS facts.  One repository is modelled by the values its VCS
calls would return; the events of processing one repository (first
reads of lazy facts, and the fetch/pull updates) are recorded in order. -/

/-- The configuration fields `get_projects` consults. -/
structure GPConfig where
  ignore : List (List Char)
  skip_branches : Bool
  fetch : Bool
  pull : Bool
deriving Repr, DecidableEq

/-- The per-repository data the VCS collaborator would report:
the raw `origin` URL (empty = falsy `None`), the basename of the
working tree, the current branch, and the last tag (empty = no tags). -/
structure RepoData where
  rawUrl : List Char
  baseName : List Char
  branch : List Char
  last_tag : List Char
deriving Repr, DecidableEq

/-- Observable events while `get_projects` processes one repository:
first reads of the lazy facts, and the VCS updates. -/
inductive GPEvent where
  | readUrl
  | readBranch
  | readLastTag
  | fetchE
  | pullE
deriving Repr, DecidableEq

/-- Whether an event is a VCS update (`git fetch` / `git pull`). -/
def GPEvent.isUpdate : GPEvent → Bool
  | .fetchE => true
  | .pullE => true
  | _ => false

/-- Whether an event is a read of a lazy fact. -/
def GPEvent.isRead : GPEvent → Bool
  | .readUrl => true
  | .readBranch => true
  | .readLastTag => true
  | _ => false

/-- Python `get_project_name(url)`: `url.rpartition('/')[-1]`, the part after
the last slash (the whole string when there is none). -/
def get_project_name (url : List Char) : List Char :=
  url.foldl (fun acc c => if c = '/' then [] else acc ++ [c]) []

/-- Python `Project.url`: `normalize_github_url(get_repo_url(...))`. -/
def RepoData.url (p : RepoData) : List Char :=
  normalize_github_url p.rawUrl

/-- Python `Project.name`: the last URL component when the project has a URL,
else the basename of the working tree. -/
def RepoData.pname (p : RepoData) : List Char :=
  if p.url ≠ [] then get_project_name p.url else p.baseName

/-- Process one repository of the `get_projects` loop body: whether the
project is yielded, and the event trace in order.  Reading `p.name`
reads the reified `url` fact; `p.branch` is read only when
`skip-branches` is configured; `p.last_tag` is read by the final test. -/
def processProject (cfg : GPConfig) (p : RepoData) :
    Bool × List GPEvent :=
  let evs0 := [GPEvent.readUrl]
  if p.pname ∈ cfg.ignore then (false, evs0)
  else
    let evs1 := evs0 ++ (if cfg.skip_branches then [GPEvent.readBranch] else [])
    if cfg.skip_branches ∧ p.branch ≠ "master".data then (false, evs1)
    else
      let evs2 := evs1 ++ (if cfg.fetch then [GPEvent.fetchE] else [])
      let evs3 := evs2 ++ (if cfg.pull then [GPEvent.pullE] else [])
      let evs4 := evs3 ++ [GPEvent.readLastTag]
      (p.last_tag ≠ [], evs4)

/-- Python `get_projects(config)`: the projects the generator yields, in order. -/
def get_projects (cfg : GPConfig) (repos : List RepoData) : List RepoData :=
  repos.filter (fun p => (processProject cfg p).1)

/-- The claimed ordering: every VCS update event precedes every read of
a lazy fact. -/
def updatesPrecedeReads (tr : List GPEvent) : Bool :=
  tr.enum.all fun (i, e) =>
    !e.isUpdate ||
      (tr.enum.all fun (j, f) => !f.isRead || decide (i < j))

/-! # Theorems -/

/-! ## C4: `to_seconds` -/

/-- C4 counterexample: the accepted grammar is NOT case-insensitive.
Under the claim, `"5M"` is an equivalent form of `"5m"` and must also
yield 300; the code raises `ValueError` on `"5M"` (the suffix match is
case-sensitive), so the two equivalent forms disagree. -/
theorem C4_counterexample :
    to_seconds "5M" = none ∧ to_seconds "5m" = some 300 := by decide

/-- C4 (amended): `to_seconds` maps every equivalent duration string of
the accepted grammar — bare integer, or integer plus a lower-case
seconds/minutes/hours unit (full word or abbreviation), space-insensitive
but case-sensitive — to the same integer seconds: `"5m"`, `"5 min"` and
`"5 minutes"` all yield 300, a bare digit string yields its own value,
and a bare non-numeric, non-suffixed string such as `"uhh"` raises. -/
theorem C4_to_seconds_amended :
    to_seconds "5m" = some 300 ∧ to_seconds "5 min" = some 300 ∧
    to_seconds "5 minutes" = some 300 ∧
    (∀ s : String, s.data ≠ [] → (∀ c ∈ s.data, isDigitCh c) →
      to_seconds s = some (natOfDigits s.data)) ∧
    to_seconds "uhh" = none := by
  refine ⟨by decide, by decide, by decide, ?_, by decide⟩
  intro s hne hd
  have hfilter : s.data.filter (fun c => c ≠ ' ') = s.data := by
    refine List.filter_eq_self.mpr (fun c hc => ?_)
    have h0 : isDigitCh c = true := hd c hc
    have : ¬ c = ' ' := by
      intro h
      subst h
      exact absurd h0 (by decide)
    simpa using this
  have hdig : pyIsdigit s.data = true := by
    have h1 : s.data.isEmpty = false := by
      cases h : s.data.isEmpty
      · rfl
      · exact absurd (List.isEmpty_iff.mp h) hne
    have h2 : s.data.all isDigitCh = true := List.all_eq_true.mpr hd
    simp [pyIsdigit, h1, h2]
  simp only [to_seconds]
  rw [hfilter]
  simp [hdig]

/-- C4 witness: the amended theorem at the bare integer string `"42"`. -/
theorem C4_witness : to_seconds "42" = some 42 := by
  have h := C4_to_seconds_amended.2.2.2.1 "42" (by decide) (by decide)
  simpa using h

/-! ## C10: issues/pulls partition -/

/-- C10: `github_issues` and `github_pulls` partition
`github_issues_and_pulls` by presence of the `pull_request` key (every
item is in exactly one of the two lists); the two counts add up to the
number of fetched items, and each unlabeled count is bounded by the
corresponding count. -/
theorem C10_issues_pulls_partition (l : List IssueItem) :
    (∀ i ∈ l,
      (i ∈ github_issues l ∧ i ∉ github_pulls l) ∨
      (i ∉ github_issues l ∧ i ∈ github_pulls l)) ∧
    open_issues_count l + open_pulls_count l = l.length ∧
    unlabeled_open_issues_count l ≤ open_issues_count l ∧
    unlabeled_open_pulls_count l ≤ open_pulls_count l := by
  refine ⟨?_, ?_, ?_, ?_⟩
  · intro i hi
    cases h : i.hasPullRequestKey
    · left
      constructor
      · exact List.mem_filter.mpr ⟨hi, by simp [h]⟩
      · intro hmem
        have := (List.mem_filter.mp hmem).2
        simp [h] at this
    · right
      constructor
      · intro hmem
        have := (List.mem_filter.mp hmem).2
        simp [h] at this
      · exact List.mem_filter.mpr ⟨hi, by simp [h]⟩
  · have h := @List.length_eq_length_filter_add _ l
      (fun i => i.hasPullRequestKey)
    simp only [open_issues_count, open_pulls_count, github_issues,
      github_pulls]
    omega
  · exact List.length_filter_le _ _
  · exact List.length_filter_le _ _

/-- C10 witness: the partition statement applied to a concrete fetched
list of one plain issue and one pull request. -/
theorem C10_witness :
    ((⟨false, []⟩ : IssueItem) ∈
        github_issues [⟨false, []⟩, ⟨true, ["bug"]⟩] ∧
      (⟨false, []⟩ : IssueItem) ∉
        github_pulls [⟨false, []⟩, ⟨true, ["bug"]⟩]) ∨
    ((⟨false, []⟩ : IssueItem) ∉
        github_issues [⟨false, []⟩, ⟨true, ["bug"]⟩] ∧
      (⟨false, []⟩ : IssueItem) ∈
        github_pulls [⟨false, []⟩, ⟨true, ["bug"]⟩]) :=
  (C10_issues_pulls_partition [⟨false, []⟩, ⟨true, ["bug"]⟩]).1
    ⟨false, []⟩ (by simp)

/-! ## C7: `reify` caching -/

/-- C7: a reified attribute is computed exactly once, on first read:
`n + 1` successive reads of a fresh instance all return the computed
value while the underlying computation runs exactly once; the cached
value persists for the lifetime of the instance; and only explicit
invalidation (`del obj.attr`) makes a later read recompute. -/
theorem C7_reify_computes_once {α : Type} (v : α) (n : Nat) :
    (attrReadN v (n + 1) (ReifyState.fresh α)).1 =
      List.replicate (n + 1) v ∧
    (attrReadN v (n + 1) (ReifyState.fresh α)).2 =
      ⟨some v, 1⟩ ∧
    (attrRead v (invalidate
      (attrReadN v (n + 1) (ReifyState.fresh α)).2)).2 =
      ⟨some v, 2⟩ := by
  have hcached : ∀ (m : Nat) (c : Nat),
      attrReadN v m ⟨some v, c⟩ = (List.replicate m v, ⟨some v, c⟩) := by
    intro m
    induction m with
    | zero => intro c; rfl
    | succ k ih =>
      intro c
      simp [attrReadN, attrRead, ih c, List.replicate]
  have hmain : attrReadN v (n + 1) (ReifyState.fresh α) =
      (List.replicate (n + 1) v, ⟨some v, 1⟩) := by
    simp [attrReadN, attrRead, ReifyState.fresh, reify_get, hcached,
      List.replicate]
  refine ⟨by rw [hmain], by rw [hmain], ?_⟩
  rw [hmain]
  rfl

/-! ## C2: `github_request` error classification -/

/-- C2: `github_request` raises a `GitHubError`-class error exactly when
the status code is in 400-499, with the generic error message taken from
the response body's `message` field; the `GitHubRateLimitError` variant
is raised exactly when the status is 403 and `X-RateLimit-Remaining`
reads `"0"`, and its text embeds the minutes-until-reset estimate
`ceil((reset - now) / 60)` — consistent with reset-time minus now:
`60*(minutes-1) < reset-now <= 60*minutes` — followed by the
human-readable clock time of the reset. -/
theorem C2_github_request_errors (res : GHResponse) (now : Int)
    (fmtClock : Int → String) :
    ((∃ e, github_request res now fmtClock = .error e) ↔
      (400 ≤ res.status ∧ res.status < 500)) ∧
    (∀ m, github_request res now fmtClock = .error (.generic m) →
      m = res.message) ∧
    ((∃ m, github_request res now fmtClock = .error (.rateLimit m)) ↔
      (res.status = 403 ∧ res.rateRemaining = some "0")) ∧
    (∀ m, github_request res now fmtClock = .error (.rateLimit m) →
      m = res.message ++ "\nTry again in "
          ++ toString (minutesUntilReset res.rateReset now)
          ++ " minutes, at " ++ fmtClock res.rateReset ++ "." ∧
      60 * (minutesUntilReset res.rateReset now - 1) <
        res.rateReset - now ∧
      res.rateReset - now ≤ 60 * minutesUntilReset res.rateReset now) := by
  have hbracket :
      60 * (minutesUntilReset res.rateReset now - 1) <
          res.rateReset - now ∧
        res.rateReset - now ≤ 60 * minutesUntilReset res.rateReset now := by
    unfold minutesUntilReset
    omega
  by_cases h1 : res.status = 403 ∧ res.rateRemaining = some "0"
  · have herr : github_request res now fmtClock =
        .error (.rateLimit (res.message ++ "\nTry again in "
          ++ toString (minutesUntilReset res.rateReset now)
          ++ " minutes, at " ++ fmtClock res.rateReset ++ ".")) := by
      simp [github_request, h1]
    refine ⟨?_, ?_, ?_, ?_⟩
    · constructor
      · intro _
        exact ⟨by omega, by omega⟩
      · intro _
        exact ⟨_, herr⟩
    · intro m hm
      simp [github_request, h1] at hm
    · constructor
      · intro _
        exact h1
      · intro _
        exact ⟨_, herr⟩
    · intro m hm
      simp only [github_request, if_pos h1, Except.error.injEq,
        GHError.rateLimit.injEq] at hm
      exact ⟨hm.symm, hbracket⟩
  · by_cases h2 : 400 ≤ res.status ∧ res.status < 500
    · have herr : github_request res now fmtClock =
          .error (.generic res.message) := by
        simp [github_request, h1, h2]
      refine ⟨?_, ?_, ?_, ?_⟩
      · constructor
        · intro _
          exact h2
        · intro _
          exact ⟨_, herr⟩
      · intro m hm
        simp only [github_request, if_neg h1, if_pos h2,
          Except.error.injEq, GHError.generic.injEq] at hm
        exact hm.symm
      · constructor
        · rintro ⟨m, hm⟩
          simp [github_request, h1, h2] at hm
        · intro hc
          exact absurd hc h1
      · intro m hm
        simp [github_request, h1, h2] at hm
    · refine ⟨?_, ?_, ?_, ?_⟩
      · constructor
        · rintro ⟨e, he⟩
          simp [github_request, h1, h2] at he
        · intro hc
          exact absurd hc h2
      · intro m hm
        simp [github_request, h1, h2] at hm
      · constructor
        · rintro ⟨m, hm⟩
          simp [github_request, h1, h2] at hm
        · intro hc
          exact absurd hc h1
      · intro m hm
        simp [github_request, h1, h2] at hm

/-- C2 witness: a 403 response with remaining-quota `"0"` and reset
timestamp 720, read at wall-clock 60, raises the rate-limit variant
whose text embeds 11 minutes (`ceil(660 / 60) = 11`). -/
theorem C2_witness :
    (∃ m, github_request ⟨403, some "0", 720, "slow down"⟩ 60
        (fun _ => "01:00") = .error (.rateLimit m)) ∧
    minutesUntilReset 720 60 = 11 :=
  ⟨(C2_github_request_errors ⟨403, some "0", 720, "slow down"⟩ 60
      (fun _ => "01:00")).2.2.1.mpr ⟨rfl, rfl⟩,
   by decide⟩

/-! ## C3: `github_request_list` pagination -/

/-- C3: when the first page's `Link` header contains `rel="next"` and
the second page's does not, `github_request_list` issues exactly two GET
requests and returns the first page's items concatenated with the
second page's items, in page order. -/
theorem C3_pagination {α : Type} (r1 r2 : PageResponse α)
    (h1 : hasNextLink r1 = true) (h2 : hasNextLink r2 = false) :
    github_request_list [r1, r2] = some (r1.items ++ r2.items, 2) := by
  simp [github_request_list, fetchRemaining, h1, h2]

/-- C3 witness: two concrete pages, the first carrying a
`rel="next"` link relation in its `Link` header. -/
theorem C3_witness :
    github_request_list
      [(⟨[2], "<x>; rel=\"next\""⟩ : PageResponse Nat), ⟨[3], ""⟩] =
      some ([2, 3], 2) := by
  have h := C3_pagination (⟨[2], "<x>; rel=\"next\""⟩ : PageResponse Nat)
    ⟨[3], ""⟩ (by decide) (by decide)
  simpa using h

/-! ## C6: `coverage_number` / `coverage` -/

/-- C6 counterexample: the result is NOT always in the range 0-100.
A 302 redirect to `coveralls_999.svg` makes `coverage_number` return
999; the code does not clamp or validate the range. -/
theorem C6_counterexample :
    coverage_number (some "u") 302 (some (covPre ++ "999".data ++ dotSvg))
      = some 999 ∧ ¬ (999 : Nat) ≤ 100 := by
  constructor
  · decide
  · decide

/-- C6 (amended): `coverage_number` is `None` whenever coverage is
inapplicable (no coveralls image URL, or the response is not a 302
redirect with a nonempty `Location`) or the redirect target embeds a
non-digit string such as `unknown`; when the target embeds a digit
string the result is exactly that integer (0-100 whenever the badge
value is, but the code does not enforce the range); and
`coverage(format, unknown)` returns the formatted number when
`coverage_number` is not `None` and the caller-supplied placeholder
otherwise. -/
theorem C6_coverage_number_amended :
    (∀ (st : Nat) (loc : Option (List Char)),
      coverage_number none st loc = none) ∧
    (∀ (u : Option String) (st : Nat) (loc : Option (List Char)),
      st ≠ 302 ∨ loc = none ∨ loc = some [] →
      coverage_number u st loc = none) ∧
    (∀ (u : String) (ds : List Char), ds ≠ [] →
      (∀ c ∈ ds, isDigitCh c) →
      coverage_number (some u) 302 (some (covPre ++ ds ++ dotSvg)) =
        some (natOfDigits ds)) ∧
    coverage_number (some "u") 302
      (some (covPre ++ "unknown".data ++ dotSvg)) = none ∧
    (∀ (fmt : Nat → String) (unknown : String) (n : Nat),
      coverage (some n) fmt unknown = fmt n ∧
      coverage none fmt unknown = unknown) := by
  refine ⟨?_, ?_, ?_, by decide, ?_⟩
  · intro st loc
    rfl
  · intro u st loc hbad
    cases u with
    | none => rfl
    | some u => simp [coverage_number, hbad]
  · intro u ds hne hd
    have hloc_ne : covPre ++ ds ++ dotSvg ≠ [] := by
      simp [covPre]
    have hpre : covPre.isPrefixOf (covPre ++ ds ++ dotSvg) = true :=
      List.isPrefixOf_iff_prefix.mpr
        (List.append_assoc covPre ds dotSvg ▸
          List.prefix_append covPre (ds ++ dotSvg))
    have hsuf : dotSvg.isSuffixOf (covPre ++ ds ++ dotSvg) = true :=
      List.isSuffixOf_iff_suffix.mpr (List.suffix_append _ _)
    have hslice : covSlice (covPre ++ ds ++ dotSvg) = ds := by
      unfold covSlice
      rw [List.append_assoc, List.drop_left]
      have hlen : (covPre ++ (ds ++ dotSvg)).length - covPre.length -
          dotSvg.length = ds.length := by
        simp [List.length_append]
      rw [hlen, List.take_left]
    have hdig : pyIsdigit ds = true := by
      have h1 : ds.isEmpty = false := by
        cases h : ds.isEmpty
        · rfl
        · exact absurd (List.isEmpty_iff.mp h) hne
      simp [pyIsdigit, h1, List.all_eq_true.mpr hd]
    have hcond : ¬ ((302 : Nat) ≠ 302 ∨
        (some (covPre ++ ds ++ dotSvg) : Option (List Char)) = none ∨
        (some (covPre ++ ds ++ dotSvg) : Option (List Char)) = some []) := by
      rintro (h | h | h)
      · exact h rfl
      · exact Option.noConfusion h
      · exact hloc_ne (Option.some.inj h)
    simp only [coverage_number, if_neg hcond]
    rw [if_pos ⟨hpre, hsuf⟩, hslice, if_pos hdig]
  · intro fmt unknown n
    exact ⟨rfl, rfl⟩

/-- C6 witness: a redirect target embedding `coveralls_87.svg` yields
coverage number 87. -/
theorem C6_witness :
    coverage_number (some "u") 302 (some (covPre ++ "87".data ++ dotSvg))
      = some 87 := by
  have h := C6_coverage_number_amended.2.2.1 "u" "87".data
    (by decide) (by decide)
  simpa using h

/-! ## C9: `parse_badge_text` -/

/-- C9 (spec-modelled): every word extracted from a badge SVG comes
from a non-shadow-flagged text element and is not an excluded word; for
an SVG with a shadow-duplicated `build` label and a crisp `passing`
label, excluding the word `build`, the extraction returns `"passing"`;
and malformed or non-SVG input (parse failure) yields the empty string
instead of raising. -/
theorem C9_parse_badge_text (d : List BadgeTextElem)
    (ex : List String) :
    (∀ w ∈ badgeWords d ex, w ∉ ex ∧
      ∃ e ∈ d, e.shadow = false ∧ w ∈ e.pieces) ∧
    parse_badge_text (some d) ex =
      String.intercalate " " (badgeWords d ex) ∧
    parse_badge_text none ex = "" ∧
    parse_badge_text
      (some [⟨some ".3", ["build"]⟩, ⟨none, ["build"]⟩,
             ⟨some ".3", ["passing"]⟩, ⟨none, ["passing"]⟩])
      ["build"] = "passing" := by
  refine ⟨?_, rfl, rfl, by decide⟩
  intro w hw
  unfold badgeWords at hw
  have h1 := List.mem_filter.mp hw
  have hnotex : w ∉ ex := of_decide_eq_true h1.2
  obtain ⟨e, he, hwe⟩ := List.mem_flatMap.mp h1.1
  have h2 := List.mem_filter.mp he
  refine ⟨hnotex, e, h2.1, ?_, hwe⟩
  have := h2.2
  cases h : e.shadow
  · rfl
  · rw [h] at this
    simp at this

/-- C9 witness: the word `"passing"` extracted from the badge scenario
document is not excluded and comes from a visible element. -/
theorem C9_witness :
    "passing" ∉ ["build"] ∧
    ∃ e ∈ [(⟨some ".3", ["build"]⟩ : BadgeTextElem), ⟨none, ["build"]⟩,
            ⟨some ".3", ["passing"]⟩, ⟨none, ["passing"]⟩],
      e.shadow = false ∧ "passing" ∈ e.pieces :=
  (C9_parse_badge_text
    [⟨some ".3", ["build"]⟩, ⟨none, ["build"]⟩,
     ⟨some ".3", ["passing"]⟩, ⟨none, ["passing"]⟩] ["build"]).1
    "passing" (by decide)

/-! ## C8: `print_html_report` atomicity -/

/-- C8: `print_html_report` renders the whole document in memory before
opening the output file, so a rendering exception leaves a previously
written output file untouched (never truncated); on success the file
holds exactly the rendered document; and the one-shot project generator
is materialized into a concrete list before rendering (a second direct
consumption of the generator would see nothing, which is why the
template receives the materialized list). -/
theorem C8_print_html_report {π ε : Type}
    (render : List π → Except ε String) (g : Gen π)
    (file0 : Option String) (hg : g.consumed = false) :
    (∀ e, render g.items = .error e →
      (print_html_report render g file0).file = file0 ∧
      (print_html_report render g file0).err = some e) ∧
    (∀ h, render g.items = .ok h →
      (print_html_report render g file0).file = some h ∧
      (print_html_report render g file0).err = none) ∧
    (g.materialize.2).materialize.1 = [] := by
  refine ⟨?_, ?_, by simp [Gen.materialize]⟩
  · intro e he
    simp [print_html_report, Gen.materialize, hg, reportExec,
      reportStepRun, reportSteps, he]
  · intro h hh
    simp [print_html_report, Gen.materialize, hg, reportExec,
      reportStepRun, reportSteps, hh]

/-- C8 witness: a failing rendering over a one-element generator leaves
the previously written file `"old"` unchanged and reports the error. -/
theorem C8_witness :
    (print_html_report (fun _ : List Nat => (.error () : Except Unit String))
      ⟨[1], false⟩ (some "old")).file = some "old" ∧
    (print_html_report (fun _ : List Nat => (.error () : Except Unit String))
      ⟨[1], false⟩ (some "old")).err = some () :=
  (C8_print_html_report (fun _ => .error ()) ⟨[1], false⟩ (some "old")
    rfl).1 () rfl

/-! ## C5: `normalize_github_url` idempotence -/

/-- Helper: `ghHttps15` is a prefix of `ghHttpsPre ++ t`. -/
theorem ghHttps15_pre_append (t : List Char) :
    ghHttps15 <+: ghHttpsPre ++ t :=
  (List.isPrefixOf_iff_prefix.mp
    (by decide : ghHttps15.isPrefixOf ghHttpsPre = true)).trans
    (List.prefix_append _ _)

/-- Helper: `ghHttps15` survives truncation of `ghHttpsPre ++ t` to any
length of at least 15. -/
theorem ghHttps15_pre_take (t : List Char) (k : Nat) (hk : 15 ≤ k) :
    ghHttps15 <+: (ghHttpsPre ++ t).take k := by
  have h15 : ghHttps15 = (ghHttpsPre ++ t).take 15 := by
    rw [List.take_append_eq_append_take]
    have h0 : 15 - ghHttpsPre.length = 0 := by decide
    rw [h0, List.take_zero, List.append_nil]
    decide
  have htk : ((ghHttpsPre ++ t).take k).take 15 =
      (ghHttpsPre ++ t).take 15 := by
    rw [List.take_take]
    congr 1
    omega
  rw [h15, ← htk]
  exact List.take_prefix _ _

/-- Helper: a list starting with `ghHttps15` does not start with the
`git://` prefix. -/
theorem not_git_pre_of_h15 (v : List Char) (h15 : ghHttps15 <+: v) :
    ghGitPre.isPrefixOf v = false := by
  cases hg : ghGitPre.isPrefixOf v
  · rfl
  · exfalso
    have hgp : ghGitPre <+: v := List.isPrefixOf_iff_prefix.mp hg
    rcases List.prefix_or_prefix_of_prefix hgp h15 with h | h
    · exact absurd (List.isPrefixOf_iff_prefix.mpr h) (by decide)
    · exact absurd (List.isPrefixOf_iff_prefix.mpr h) (by decide)

/-- Helper: a list starting with `ghHttps15` does not start with the
SSH-style prefix. -/
theorem not_ssh_pre_of_h15 (v : List Char) (h15 : ghHttps15 <+: v) :
    ghSshPre.isPrefixOf v = false := by
  cases hg : ghSshPre.isPrefixOf v
  · rfl
  · exfalso
    have hgp : ghSshPre <+: v := List.isPrefixOf_iff_prefix.mp hg
    rcases List.prefix_or_prefix_of_prefix hgp h15 with h | h
    · exact absurd (List.isPrefixOf_iff_prefix.mpr h) (by decide)
    · exact absurd (List.isPrefixOf_iff_prefix.mpr h) (by decide)

/-- Helper: `normalize_github_url` on a nonempty URL, unfolded. -/
theorem norm_eq_of_ne (url : List Char) (hne : url ≠ []) :
    normalize_github_url url =
      if ¬ ghHttpsPre.isPrefixOf (gh_translate url) then gh_translate url
      else if dotGit.isSuffixOf (gh_translate url) then
        (gh_translate url).take
          ((gh_translate url).length - dotGit.length)
      else gh_translate url := by
  simp only [normalize_github_url]
  rw [if_neg hne]

/-- Helper: `gh_translate` either leaves the URL unchanged or produces
a `https://github.com/`-prefixed one. -/
theorem gh_translate_cases (url : List Char) :
    gh_translate url = url ∨
    ∃ t, gh_translate url = ghHttpsPre ++ t := by
  by_cases h1 : ghGitPre.isPrefixOf url = true
  · right
    exact ⟨url.drop ghGitPre.length, by simp [gh_translate, h1]⟩
  · by_cases h2 : ghSshPre.isPrefixOf url = true
    · right
      exact ⟨url.drop ghSshPre.length, by simp [gh_translate, h1, h2]⟩
    · left
      simp [gh_translate, h1, h2]

/-- Helper: any list retaining the 15-character GitHub https stem that
is not both `https://github.com/`-prefixed and `.git`-suffixed is a
fixed point of `normalize_github_url`. -/
theorem norm_fixpoint (v : List Char) (h15 : ghHttps15 <+: v)
    (hno : ¬ (ghHttpsPre.isPrefixOf v = true ∧
      dotGit.isSuffixOf v = true)) :
    normalize_github_url v = v := by
  have hne : v ≠ [] := by
    intro h
    subst h
    exact absurd h15.length_le (by decide)
  have hg : ghGitPre.isPrefixOf v = false := not_git_pre_of_h15 v h15
  have hs : ghSshPre.isPrefixOf v = false := not_ssh_pre_of_h15 v h15
  have htr : gh_translate v = v := by simp [gh_translate, hg, hs]
  rw [norm_eq_of_ne v hne, htr]
  by_cases hp : ghHttpsPre.isPrefixOf v = true
  · have hsuf : dotGit.isSuffixOf v = false := by
      cases hsf : dotGit.isSuffixOf v
      · rfl
      · exact absurd ⟨hp, hsf⟩ hno
    rw [if_neg (by simp [hp]), if_neg (by simp [hsuf])]
  · rw [if_pos (by simp [hp])]

/-- C5 counterexample: a git-protocol GitHub URL ending in `.git.git`
is normalized to an `https` URL still ending in `.git`, so a second
application strips a second suffix: the function is not idempotent on
all URLs of the claimed classes. -/
theorem C5_counterexample :
    normalize_github_url (normalize_github_url
        "git@github.com:mgedmin/x.git.git".data) ≠
      normalize_github_url "git@github.com:mgedmin/x.git.git".data := by
  decide

/-- C5 (amended): `normalize_github_url` is idempotent on every URL
whose single normalization is not itself a `https://github.com/` URL
still ending in `.git` (i.e. on every URL of the claimed classes except
those ending in `.git.git`); and every URL not recognized as a GitHub
URL (no SSH-style, git-protocol, or https GitHub prefix) is returned
unchanged. -/
theorem C5_normalize_idempotent_amended (url : List Char) :
    (¬ (ghHttpsPre.isPrefixOf (normalize_github_url url) = true ∧
        dotGit.isSuffixOf (normalize_github_url url) = true) →
      normalize_github_url (normalize_github_url url) =
        normalize_github_url url) ∧
    (ghGitPre.isPrefixOf url = false →
      ghSshPre.isPrefixOf url = false →
      ghHttpsPre.isPrefixOf url = false →
      normalize_github_url url = url) := by
  constructor
  · intro h
    by_cases hemp : url = []
    · subst hemp
      decide
    · by_cases hp : ghHttpsPre.isPrefixOf (gh_translate url) = true
      · obtain ⟨t, ht⟩ : ∃ t, gh_translate url = ghHttpsPre ++ t := by
          rcases gh_translate_cases url with hcase | hcase
          · obtain ⟨t, ht⟩ := List.isPrefixOf_iff_prefix.mp hp
            exact ⟨t, ht.symm⟩
          · exact hcase
        have hp' : ghHttpsPre.isPrefixOf (ghHttpsPre ++ t) = true := by
          rw [← ht]
          exact hp
        have hnorm : normalize_github_url url =
            if dotGit.isSuffixOf (ghHttpsPre ++ t) then
              (ghHttpsPre ++ t).take
                ((ghHttpsPre ++ t).length - dotGit.length)
            else ghHttpsPre ++ t := by
          rw [norm_eq_of_ne url hemp, ht, if_neg (by simp [hp'])]
        have h15 : ghHttps15 <+: normalize_github_url url := by
          rw [hnorm]
          by_cases hsf : dotGit.isSuffixOf (ghHttpsPre ++ t) = true
          · rw [if_pos hsf]
            apply ghHttps15_pre_take
            have hl1 : ghHttpsPre.length = 19 := by decide
            have hl2 : dotGit.length = 4 := by decide
            rw [List.length_append, hl1, hl2]
            omega
          · rw [if_neg hsf]
            exact ghHttps15_pre_append t
        exact norm_fixpoint _ h15 h
      · have htr : gh_translate url = url := by
          rcases gh_translate_cases url with hcase | ⟨t, ht⟩
          · exact hcase
          · exfalso
            apply hp
            rw [ht]
            exact List.isPrefixOf_iff_prefix.mpr (List.prefix_append _ _)
        have hp' : ¬ ghHttpsPre.isPrefixOf url = true := by
          rw [← htr]
          exact hp
        have hnorm : normalize_github_url url = url := by
          rw [norm_eq_of_ne url hemp, htr, if_pos (by simp [hp'])]
        rw [hnorm, hnorm]
  · intro h1 h2 h3
    by_cases hemp : url = []
    · subst hemp
      rfl
    · have htr : gh_translate url = url := by simp [gh_translate, h1, h2]
      rw [norm_eq_of_ne url hemp, htr, if_pos (by simp [h3])]

/-- C5 witness: idempotence at a concrete SSH-style GitHub URL, and
pass-through of a concrete non-GitHub URL, via the amended theorem. -/
theorem C5_witness :
    normalize_github_url (normalize_github_url
        "git@github.com:mgedmin/project-summary.git".data) =
      normalize_github_url
        "git@github.com:mgedmin/project-summary.git".data ∧
    normalize_github_url "fridge:git/unrelated.git".data =
      "fridge:git/unrelated.git".data :=
  ⟨(C5_normalize_idempotent_amended
      "git@github.com:mgedmin/project-summary.git".data).1 (by decide),
   (C5_normalize_idempotent_amended "fridge:git/unrelated.git".data).2
      (by decide) (by decide) (by decide)⟩

/-! ## C1: `get_projects` filtering and update order -/

/-- C1 counterexample: the fetch/pull update does NOT run before every
lazy fact is read.  With fetch enabled, processing a repository reads
the reified `url` fact (through `p.name`, for the ignore test) before
`git fetch` runs: the event trace is `[readUrl, fetchE, readLastTag]`,
where the `readUrl` read precedes the update. -/
theorem C1_counterexample :
    (processProject ⟨[], false, true, false⟩
        ⟨[], "a".data, "master".data, "1.0".data⟩).1 = true ∧
    (⟨[], false, true, false⟩ : GPConfig).fetch = true ∧
    updatesPrecedeReads
      (processProject ⟨[], false, true, false⟩
        ⟨[], "a".data, "master".data, "1.0".data⟩).2 = false := by
  decide

/-- C1 (amended): `get_projects` yields a project only if its last tag
is non-empty, its name is not on the configured ignore list, and, when
skip-branches is set, it is on the default branch (`master`); and for
every yielded project the fetch/pull updates run after the name (url)
fact — and, when skip-branches is set, the branch fact — is read, but
before the last-tag fact (and all later facts) are read: the full event
trace is url read, optional branch read, optional fetch, optional pull,
last-tag read, in that order. -/
theorem C1_get_projects_amended (cfg : GPConfig)
    (repos : List RepoData) (p : RepoData) :
    (p ∈ get_projects cfg repos →
      p.last_tag ≠ [] ∧ p.pname ∉ cfg.ignore ∧
      (cfg.skip_branches = true → p.branch = "master".data)) ∧
    ((processProject cfg p).1 = true →
      (processProject cfg p).2 =
        [GPEvent.readUrl]
        ++ (if cfg.skip_branches then [GPEvent.readBranch] else [])
        ++ (if cfg.fetch then [GPEvent.fetchE] else [])
        ++ (if cfg.pull then [GPEvent.pullE] else [])
        ++ [GPEvent.readLastTag]) := by
  have hyield : (processProject cfg p).1 = true →
      p.last_tag ≠ [] ∧ p.pname ∉ cfg.ignore ∧
      (cfg.skip_branches = true → p.branch = "master".data) := by
    intro hy
    unfold processProject at hy
    by_cases hign : p.pname ∈ cfg.ignore
    · rw [if_pos hign] at hy
      exact absurd hy (by decide)
    · rw [if_neg hign] at hy
      by_cases hskip : cfg.skip_branches = true ∧ p.branch ≠ "master".data
      · rw [if_pos hskip] at hy
        simp at hy
      · rw [if_neg hskip] at hy
        simp only [decide_eq_true_eq] at hy
        refine ⟨hy, hign, ?_⟩
        intro hsb
        by_contra hbr
        exact hskip ⟨hsb, hbr⟩
  constructor
  · intro hp
    have h1 := (List.mem_filter.mp hp).2
    exact hyield h1
  · intro hy
    obtain ⟨_, hign, _⟩ := hyield hy
    have hskip : ¬ (cfg.skip_branches = true ∧ p.branch ≠ "master".data) := by
      intro hc
      unfold processProject at hy
      rw [if_neg hign, if_pos hc] at hy
      simp at hy
    unfold processProject
    rw [if_neg hign, if_neg hskip]

/-- C1 witness: the amended theorem at a concrete configuration with
skip-branches, fetch and pull all enabled, and a one-repository list
whose project is yielded. -/
theorem C1_witness :
    ((⟨[], "a".data, "master".data, "1.0".data⟩ : RepoData).last_tag ≠ [] ∧
      (⟨[], "a".data, "master".data, "1.0".data⟩ : RepoData).pname ∉
        (⟨[], true, true, true⟩ : GPConfig).ignore ∧
      ((⟨[], true, true, true⟩ : GPConfig).skip_branches = true →
        (⟨[], "a".data, "master".data, "1.0".data⟩ : RepoData).branch =
          "master".data)) ∧
    (processProject ⟨[], true, true, true⟩
        ⟨[], "a".data, "master".data, "1.0".data⟩).2 =
      [GPEvent.readUrl]
      ++ (if (⟨[], true, true, true⟩ : GPConfig).skip_branches then
            [GPEvent.readBranch] else [])
      ++ (if (⟨[], true, true, true⟩ : GPConfig).fetch then
            [GPEvent.fetchE] else [])
      ++ (if (⟨[], true, true, true⟩ : GPConfig).pull then
            [GPEvent.pullE] else [])
      ++ [GPEvent.readLastTag] :=
  ⟨(C1_get_projects_amended ⟨[], true, true, true⟩
      [⟨[], "a".data, "master".data, "1.0".data⟩]
      ⟨[], "a".data, "master".data, "1.0".data⟩).1 (by decide),
   (C1_get_projects_amended ⟨[], true, true, true⟩
      [⟨[], "a".data, "master".data, "1.0".data⟩]
      ⟨[], "a".data, "master".data, "1.0".data⟩).2 (by decide)⟩

end ProjectSummary
